import Mathlib

/-!
Shallow embedding of the trading repository's Order Risk Gateway
(`src/TWS API/C++ Implementation/src/OrderManager.cpp`) and Portfolio
Analytics Engine (`src/TWS API/C++ Implementation/src/PortfolioManager.cpp`).

C++ `double` fields are modelled as `ℚ`, `int` ids as `ℤ`, the
`std::unordered_map<int, Order>` order book as an association list
`List (ℤ × Order)` with map-assignment (`upsert`) and find-then-update
(`setOrder`, `setStatus`) operations, and the external Trading Venue Gateway
(`client_`) as oracle arguments: the id returned by `client_->placeOrder`
and the booleans returned by `client_->cancelOrder` / `client_->modifyOrder`
are passed in as parameters.
-/

namespace IBTrading

/-- `enum class OrderType` from `include/Common.h`. -/
inductive OrderType where
  | MARKET
  | LIMIT
  | STOP
  | STOP_LIMIT
deriving DecidableEq, Repr

/-- `enum class OrderSide` from `include/Common.h`. -/
inductive OrderSide where
  | BUY
  | SELL
deriving DecidableEq, Repr

/-- `enum class OrderStatus` from `include/Common.h`. -/
inductive OrderStatus where
  | PENDING
  | SUBMITTED
  | FILLED
  | CANCELLED
  | REJECTED
deriving DecidableEq, Repr

/-- `struct Order` from `include/Common.h`; the
`std::chrono::system_clock::time_point` timestamp is modelled as an opaque
natural number supplied by the caller. -/
structure Order where
  orderId : ℤ
  symbol : String
  type : OrderType
  side : OrderSide
  quantity : ℚ
  price : ℚ
  stopPrice : ℚ
  status : OrderStatus
  timestamp : ℕ
deriving DecidableEq, Repr

/-- The default constructor `Order()` from `include/Common.h`:
`orderId(0), quantity(0.0), price(0.0), stopPrice(0.0), status(PENDING)`. -/
def Order.default : Order :=
  { orderId := 0, symbol := "", type := OrderType.MARKET, side := OrderSide.BUY,
    quantity := 0, price := 0, stopPrice := 0, status := OrderStatus.PENDING,
    timestamp := 0 }

/-- Mutable state of an `OrderManager` object (fields of the class in
`include/OrderManager.h`): the order book `orders_`, the risk parameters
`maxPositionSize_`, `maxDailyLoss_`, `dailyPnL_`, and the statistics
`totalTrades_`, `winningTrades_`. -/
structure OMState where
  orders : List (ℤ × Order)
  maxPositionSize : ℚ
  maxDailyLoss : ℚ
  dailyPnL : ℚ
  totalTrades : ℕ
  winningTrades : ℕ
deriving DecidableEq, Repr

/-- The `OrderManager` constructor: `maxPositionSize_(10000.0),
maxDailyLoss_(1000.0), dailyPnL_(0.0), totalTrades_(0), winningTrades_(0)`
and an empty order book. -/
def omInit : OMState :=
  { orders := [], maxPositionSize := 10000, maxDailyLoss := 1000,
    dailyPnL := 0, totalTrades := 0, winningTrades := 0 }

/-- `orders_.find(orderId)`: first entry with the given key, if any. -/
def findOrder (l : List (ℤ × Order)) (k : ℤ) : Option Order :=
  match l with
  | [] => none
  | p :: t => if p.1 = k then some p.2 else findOrder t k

/-- `orders_[orderId] = order`: map assignment, replacing the entry with key
`k` if present and appending a fresh entry otherwise. -/
def upsert (l : List (ℤ × Order)) (k : ℤ) (o : Order) : List (ℤ × Order) :=
  match l with
  | [] => [(k, o)]
  | p :: t => if p.1 = k then (k, o) :: t else p :: upsert t k o

/-- `it->second = o` after a successful `orders_.find(k)`: replace the value
stored under key `k`, leaving the list unchanged when `k` is absent. -/
def setOrder (l : List (ℤ × Order)) (k : ℤ) (o : Order) : List (ℤ × Order) :=
  match l with
  | [] => []
  | p :: t => if p.1 = k then (p.1, o) :: t else p :: setOrder t k o

/-- `it->second.status = st` after a successful `orders_.find(k)`. -/
def setStatus (l : List (ℤ × Order)) (k : ℤ) (st : OrderStatus) : List (ℤ × Order) :=
  match l with
  | [] => []
  | p :: t => if p.1 = k then (p.1, { p.2 with status := st }) :: t else p :: setStatus t k st

/-- `OrderManager::checkRiskLimits` (OrderManager.cpp lines 272-287):
rejects when `orderValue = quantity * price` exceeds `maxPositionSize_`,
then rejects when `dailyPnL_ < -maxDailyLoss_`; accepts otherwise. -/
def checkRiskLimits (s : OMState) (o : Order) : Bool :=
  if s.maxPositionSize < o.quantity * o.price then false
  else if s.dailyPnL < -s.maxDailyLoss then false
  else true

/-- The structural prefix of `OrderManager::validateOrder`
(OrderManager.cpp lines 192-216): empty symbol, non-positive quantity, and
the per-type price checks. -/
def validateOrderStruct (o : Order) : Bool :=
  if o.symbol = "" then false
  else if o.quantity ≤ 0 then false
  else if o.type = OrderType.LIMIT ∧ o.price ≤ 0 then false
  else if o.type = OrderType.STOP ∧ o.stopPrice ≤ 0 then false
  else if o.type = OrderType.STOP_LIMIT ∧ (o.price ≤ 0 ∨ o.stopPrice ≤ 0) then false
  else true

/-- `OrderManager::validateOrder` (OrderManager.cpp lines 192-219): the
structural checks followed by `return checkRiskLimits(order)`. -/
def validateOrder (s : OMState) (o : Order) : Bool :=
  validateOrderStruct o && checkRiskLimits s o

/-- The transient order built at the top of `OrderManager::placeMarketOrder`
(OrderManager.cpp lines 16-21): default-constructed, then symbol, type,
side, quantity and timestamp assigned. -/
def mkMarketOrder (symbol : String) (side : OrderSide) (quantity : ℚ)
    (ts : ℕ) : Order :=
  { Order.default with
    symbol := symbol, type := OrderType.MARKET, side := side,
    quantity := quantity, timestamp := ts }

/-- The transient order built at the top of `OrderManager::placeLimitOrder`
(OrderManager.cpp lines 39-45). -/
def mkLimitOrder (symbol : String) (side : OrderSide) (quantity price : ℚ)
    (ts : ℕ) : Order :=
  { Order.default with
    symbol := symbol, type := OrderType.LIMIT, side := side,
    quantity := quantity, price := price, timestamp := ts }

/-- The transient order built at the top of `OrderManager::placeStopOrder`
(OrderManager.cpp lines 63-69). -/
def mkStopOrder (symbol : String) (side : OrderSide) (quantity stopPrice : ℚ)
    (ts : ℕ) : Order :=
  { Order.default with
    symbol := symbol, type := OrderType.STOP, side := side,
    quantity := quantity, stopPrice := stopPrice, timestamp := ts }

/-- The transient order built at the top of
`OrderManager::placeStopLimitOrder` (OrderManager.cpp lines 88-95). -/
def mkStopLimitOrder (symbol : String) (side : OrderSide)
    (quantity limitPrice stopPrice : ℚ) (ts : ℕ) : Order :=
  { Order.default with
    symbol := symbol, type := OrderType.STOP_LIMIT, side := side,
    quantity := quantity, price := limitPrice, stopPrice := stopPrice,
    timestamp := ts }

/-- `OrderManager::placeMarketOrder` (OrderManager.cpp lines 15-36).
`venueId` is the oracle value returned by `client_->placeOrder(order)`;
that call only happens when validation succeeds. Returns the C++ return
value together with the post-state. -/
def placeMarketOrder (s : OMState) (venueId : ℤ) (symbol : String)
    (side : OrderSide) (quantity : ℚ) (ts : ℕ) : ℤ × OMState :=
  if ¬ validateOrder s (mkMarketOrder symbol side quantity ts) then (-1, s)
  else if 0 < venueId then
    (venueId, { s with orders := upsert s.orders venueId { mkMarketOrder symbol side quantity ts with orderId := venueId } })
  else (venueId, s)

/-- `OrderManager::placeLimitOrder` (OrderManager.cpp lines 38-60). -/
def placeLimitOrder (s : OMState) (venueId : ℤ) (symbol : String)
    (side : OrderSide) (quantity price : ℚ) (ts : ℕ) : ℤ × OMState :=
  if ¬ validateOrder s (mkLimitOrder symbol side quantity price ts) then (-1, s)
  else if 0 < venueId then
    (venueId, { s with orders := upsert s.orders venueId { mkLimitOrder symbol side quantity price ts with orderId := venueId } })
  else (venueId, s)

/-- `OrderManager::placeStopOrder` (OrderManager.cpp lines 62-84). -/
def placeStopOrder (s : OMState) (venueId : ℤ) (symbol : String)
    (side : OrderSide) (quantity stopPrice : ℚ) (ts : ℕ) : ℤ × OMState :=
  if ¬ validateOrder s (mkStopOrder symbol side quantity stopPrice ts) then (-1, s)
  else if 0 < venueId then
    (venueId, { s with orders := upsert s.orders venueId { mkStopOrder symbol side quantity stopPrice ts with orderId := venueId } })
  else (venueId, s)

/-- `OrderManager::placeStopLimitOrder` (OrderManager.cpp lines 86-110). -/
def placeStopLimitOrder (s : OMState) (venueId : ℤ) (symbol : String)
    (side : OrderSide) (quantity limitPrice stopPrice : ℚ) (ts : ℕ) : ℤ × OMState :=
  if ¬ validateOrder s (mkStopLimitOrder symbol side quantity limitPrice stopPrice ts) then
    (-1, s)
  else if 0 < venueId then
    (venueId, { s with orders := upsert s.orders venueId { mkStopLimitOrder symbol side quantity limitPrice stopPrice ts with orderId := venueId } })
  else (venueId, s)

/-- `OrderManager::cancelOrder` (OrderManager.cpp lines 112-127).
`venueOk` is the oracle value of `client_->cancelOrder(orderId)`, called only
when the id is found; the stored status becomes `CANCELLED` only when the
venue call succeeds, and the C++ return value is the venue result. -/
def cancelOrder (s : OMState) (venueOk : Bool) (orderId : ℤ) : Bool × OMState :=
  match findOrder s.orders orderId with
  | none => (false, s)
  | some _ =>
    if venueOk then (true, { s with orders := setStatus s.orders orderId OrderStatus.CANCELLED })
    else (false, s)

/-- `OrderManager::modifyOrder` (OrderManager.cpp lines 129-150).
`venueOk` is the oracle value of `client_->modifyOrder(orderId, newOrder)`;
on success the stored order becomes `newOrder` with its `orderId` field
overwritten by the original id (`it->second.orderId = orderId`). -/
def modifyOrder (s : OMState) (venueOk : Bool) (orderId : ℤ) (newOrder : Order) :
    Bool × OMState :=
  match findOrder s.orders orderId with
  | none => (false, s)
  | some _ =>
    if ¬ (validateOrder s newOrder = true) then (false, s)
    else if venueOk then
      (true, { s with orders := setOrder s.orders orderId { newOrder with orderId := orderId } })
    else (false, s)

/-- `OrderManager::updateOrderStatus` (OrderManager.cpp lines 256-266): if the
id is found, the stored status is overwritten with the supplied status, with
no constraint relating it to the previous status; `totalTrades_` is
incremented when the new status is `FILLED`. -/
def updateOrderStatus (s : OMState) (orderId : ℤ) (status : OrderStatus) : OMState :=
  match findOrder s.orders orderId with
  | none => s
  | some _ =>
    { s with orders := setStatus s.orders orderId status,
             totalTrades := if status = OrderStatus.FILLED then s.totalTrades + 1
                            else s.totalTrades }

/-- Mutable state of a `PortfolioManager` object restricted to the fields the
return-series statistics read (`include/PortfolioManager.h`): the rolling
daily-return window `dailyReturns_` and `initialPortfolioValue_`. -/
structure PMState where
  dailyReturns : List ℚ
  initialPortfolioValue : ℚ
deriving DecidableEq, Repr

/-- The `PortfolioManager` constructor: `initialPortfolioValue_(100000.0)`
and an empty return history. -/
def pmInit : PMState :=
  { dailyReturns := [], initialPortfolioValue := 100000 }

/-- The list-level body of `PortfolioManager::recordDailyReturn`
(PortfolioManager.cpp lines 136-145): `push_back(returnValue)` followed by
`erase(begin())` when the size exceeds 252. -/
def recordStep (l : List ℚ) (returnValue : ℚ) : List ℚ :=
  let grown := l ++ [returnValue]
  if 252 < grown.length then grown.tail else grown

/-- `PortfolioManager::recordDailyReturn` acting on the manager state. -/
def recordDailyReturn (s : PMState) (returnValue : ℚ) : PMState :=
  { s with dailyReturns := recordStep s.dailyReturns returnValue }

/-- One iteration of the loop in `PortfolioManager::getMaxDrawdown`
(PortfolioManager.cpp lines 91-95) on the pair
`(maxDrawdown, peak)`: `peak = max(peak, peak * (1 + r))` and then
`drawdown = (peak - peak * (1 + r)) / peak` against the updated peak. -/
def drawdownStep (acc : ℚ × ℚ) (dailyReturn : ℚ) : ℚ × ℚ :=
  let peak := max acc.2 (acc.2 * (1 + dailyReturn))
  let drawdown := (peak - peak * (1 + dailyReturn)) / peak
  (max acc.1 drawdown, peak)

/-- `PortfolioManager::getMaxDrawdown` (PortfolioManager.cpp lines 85-98):
returns 0 on an empty history, otherwise folds `drawdownStep` over the
return window starting from `(0, initialPortfolioValue_)`. -/
def getMaxDrawdown (s : PMState) : ℚ :=
  if s.dailyReturns.isEmpty then 0
  else (s.dailyReturns.foldl drawdownStep (0, s.initialPortfolioValue)).1

/-- `static_cast<int>` applied to a non-negative-denominator rational:
C++ float-to-int conversion truncates toward zero. -/
def ratTrunc (q : ℚ) : ℤ :=
  Int.tdiv q.num q.den

/-- The index computation of `PortfolioManager::getVaR`
(PortfolioManager.cpp lines 106-107): `int index = static_cast<int>((1.0 -
confidenceLevel) * size)`, then `if (index >= size) index = size - 1`. -/
def varIndex (n : ℕ) (confidenceLevel : ℚ) : ℤ :=
  if (n : ℤ) ≤ ratTrunc ((1 - confidenceLevel) * (n : ℚ)) then (n : ℤ) - 1
  else ratTrunc ((1 - confidenceLevel) * (n : ℚ))

/-- `PortfolioManager::getVaR` (PortfolioManager.cpp lines 100-110): 0 on an
empty history; otherwise sorts the window ascending, indexes it at
`varIndex` and negates the selected return. -/
def getVaR (s : PMState) (confidenceLevel : ℚ) : ℚ :=
  if s.dailyReturns.isEmpty then 0
  else
    let sortedReturns := s.dailyReturns.insertionSort (· ≤ ·);
    -(sortedReturns.getD (varIndex sortedReturns.length confidenceLevel).toNat 0)

/-- Modelled from the spec (for comparison with `getVaR`): "sorts the return
window ascending, picks the return at rank `floor((1-confidenceLevel) * n)`
(clamped to last index), negates it." -/
def getVaRSpecModel (s : PMState) (confidenceLevel : ℚ) : ℚ :=
  if s.dailyReturns.isEmpty then 0
  else
    let sortedReturns := s.dailyReturns.insertionSort (· ≤ ·);
    let n := sortedReturns.length;
    -(sortedReturns.getD (min (Int.toNat ⌊(1 - confidenceLevel) * (n : ℚ)⌋) (n - 1)) 0)

/-!
Event-trace model for the locking discipline (claim about §5 of the spec).
Each order operation of `OrderManager` is transcribed as the sequence of
lock, book and venue events it performs on the path where both the venue
call and the book mutation occur, in source order.
-/

/-- Events of an `OrderManager` operation: acquiring/releasing `ordersMutex_`
(the `std::lock_guard` constructor/destructor), a call into the Trading
Venue Gateway (`client_->...`), and a read or write of `orders_`. -/
inductive GatewayEvent where
  | lockAcquire
  | lockRelease
  | venueCall
  | bookAccess
deriving DecidableEq, Repr

/-- `placeMarketOrder` success path (OrderManager.cpp lines 15-36):
`client_->placeOrder` at line 28, then `lock_guard` at line 31, the book
write at line 32, and the release when the guard leaves scope. The other
three placement operations perform the same event sequence
(lines 52/55/56, 76/79/80, 102/105/106). -/
def placeOrderTrace : List GatewayEvent :=
  [GatewayEvent.venueCall, GatewayEvent.lockAcquire, GatewayEvent.bookAccess,
   GatewayEvent.lockRelease]

/-- `cancelOrder` found-order path (OrderManager.cpp lines 112-127):
`lock_guard` at line 113, `orders_.find` at line 114, `client_->cancelOrder`
at line 120, the status write at line 122, release at scope exit. -/
def cancelOrderTrace : List GatewayEvent :=
  [GatewayEvent.lockAcquire, GatewayEvent.bookAccess, GatewayEvent.venueCall,
   GatewayEvent.bookAccess, GatewayEvent.lockRelease]

/-- `modifyOrder` found-and-valid path (OrderManager.cpp lines 129-150):
`lock_guard` at line 130, `orders_.find` at line 131, `client_->modifyOrder`
at line 142, the book write at lines 144-145, release at scope exit. -/
def modifyOrderTrace : List GatewayEvent :=
  [GatewayEvent.lockAcquire, GatewayEvent.bookAccess, GatewayEvent.venueCall,
   GatewayEvent.bookAccess, GatewayEvent.lockRelease]

/-- Whether a trace contains a venue call made while the lock is held
(`depth` counts currently-held acquisitions). -/
def venueCallUnderLock (trace : List GatewayEvent) (depth : ℕ) : Bool :=
  match trace with
  | [] => false
  | e :: rest =>
    match e with
    | GatewayEvent.lockAcquire => venueCallUnderLock rest (depth + 1)
    | GatewayEvent.lockRelease => venueCallUnderLock rest (depth - 1)
    | GatewayEvent.venueCall => decide (0 < depth) || venueCallUnderLock rest depth
    | GatewayEvent.bookAccess => venueCallUnderLock rest depth

/-! ## Helper lemmas -/

/-- Unpacking a successful structural validation into the individual field
conditions checked by `OrderManager::validateOrder`. -/
lemma validateOrderStruct_true {o : Order} (h : validateOrderStruct o = true) :
    o.symbol ≠ "" ∧ ¬ o.quantity ≤ 0 ∧
    (o.type = OrderType.LIMIT → ¬ o.price ≤ 0) ∧
    (o.type = OrderType.STOP → ¬ o.stopPrice ≤ 0) ∧
    (o.type = OrderType.STOP_LIMIT → ¬ o.price ≤ 0 ∧ ¬ o.stopPrice ≤ 0) := by
  unfold validateOrderStruct at h
  split_ifs at h with h1 h2 h3 h4 h5
  refine ⟨h1, h2, ?_, ?_, ?_⟩ <;> intro ht
  · exact fun hp => h3 ⟨ht, hp⟩
  · exact fun hp => h4 ⟨ht, hp⟩
  · constructor
    · exact fun hp => h5 ⟨ht, Or.inl hp⟩
    · exact fun hp => h5 ⟨ht, Or.inr hp⟩

/-- `validateOrder` succeeds exactly when both the structural checks and the
risk checks succeed. -/
lemma validateOrder_true_iff (s : OMState) (o : Order) :
    validateOrder s o = true ↔
    (validateOrderStruct o = true ∧ checkRiskLimits s o = true) := by
  simp [validateOrder]

/-- Looking up the key just written by map assignment yields the new order. -/
lemma findOrder_upsert_self (l : List (ℤ × Order)) (k : ℤ) (o : Order) :
    findOrder (upsert l k o) k = some o := by
  induction l with
  | nil => simp [upsert, findOrder]
  | cons p t ih =>
    by_cases hk : p.1 = k
    · simp [upsert, findOrder, hk]
    · simp [upsert, findOrder, hk, ih]

/-- Looking up a present key after `setOrder` yields the replacement order. -/
lemma findOrder_setOrder_self {l : List (ℤ × Order)} {k : ℤ} {o' : Order}
    (o : Order) (h : findOrder l k = some o') :
    findOrder (setOrder l k o) k = some o := by
  induction l with
  | nil => simp [findOrder] at h
  | cons p t ih =>
    by_cases hk : p.1 = k
    · simp [setOrder, findOrder, hk]
    · simp only [findOrder, hk, if_false] at h
      simp [setOrder, findOrder, hk, ih h]

/-- Looking up a present key after `setStatus` yields the stored order with
its status overwritten. -/
lemma findOrder_setStatus_self {l : List (ℤ × Order)} {k : ℤ} {o : Order}
    (st : OrderStatus) (h : findOrder l k = some o) :
    findOrder (setStatus l k st) k = some { o with status := st } := by
  induction l with
  | nil => simp [findOrder] at h
  | cons p t ih =>
    by_cases hk : p.1 = k
    · simp only [findOrder, hk, if_true] at h
      simp [setStatus, findOrder, hk, ← Option.some_inj.mp h]
    · simp only [findOrder, hk, if_false] at h
      simp [setStatus, findOrder, hk, ih h]

/-! ## C1 -/

/-- C1: each of the four order placement calls, when the constructed order
violates one of the structural validation conditions (empty symbol,
non-positive quantity, non-positive limit price for limit/stop-limit orders,
non-positive stop price for stop/stop-limit orders) or when the venue
returns a non-positive id, returns a value ≤ 0 and leaves the whole
`OrderManager` state (in particular the order book) unchanged. -/
theorem place_reject_returns_failure_book_unchanged :
    ∀ (s : OMState) (venueId : ℤ) (sym : String) (side : OrderSide)
      (qty price stop : ℚ) (ts : ℕ),
    (sym = "" ∨ qty ≤ 0 ∨ venueId ≤ 0 →
      (placeMarketOrder s venueId sym side qty ts).1 ≤ 0 ∧
      (placeMarketOrder s venueId sym side qty ts).2 = s) ∧
    (sym = "" ∨ qty ≤ 0 ∨ price ≤ 0 ∨ venueId ≤ 0 →
      (placeLimitOrder s venueId sym side qty price ts).1 ≤ 0 ∧
      (placeLimitOrder s venueId sym side qty price ts).2 = s) ∧
    (sym = "" ∨ qty ≤ 0 ∨ stop ≤ 0 ∨ venueId ≤ 0 →
      (placeStopOrder s venueId sym side qty stop ts).1 ≤ 0 ∧
      (placeStopOrder s venueId sym side qty stop ts).2 = s) ∧
    (sym = "" ∨ qty ≤ 0 ∨ price ≤ 0 ∨ stop ≤ 0 ∨ venueId ≤ 0 →
      (placeStopLimitOrder s venueId sym side qty price stop ts).1 ≤ 0 ∧
      (placeStopLimitOrder s venueId sym side qty price stop ts).2 = s) := by
  intro s venueId sym side qty price stop ts
  refine ⟨?_, ?_, ?_, ?_⟩ <;> intro h
  · unfold placeMarketOrder
    split_ifs with h1 h2
    · exfalso
      have hs := validateOrderStruct_true ((validateOrder_true_iff _ _).mp h1).1
      rcases h with hsym | hq | hvid
      · exact hs.1 hsym
      · exact hs.2.1 hq
      · omega
    · exact ⟨by omega, rfl⟩
    · exact ⟨by norm_num, rfl⟩
  · unfold placeLimitOrder
    split_ifs with h1 h2
    · exfalso
      have hs := validateOrderStruct_true ((validateOrder_true_iff _ _).mp h1).1
      rcases h with hsym | hq | hp | hvid
      · exact hs.1 hsym
      · exact hs.2.1 hq
      · exact hs.2.2.1 rfl hp
      · omega
    · exact ⟨by omega, rfl⟩
    · exact ⟨by norm_num, rfl⟩
  · unfold placeStopOrder
    split_ifs with h1 h2
    · exfalso
      have hs := validateOrderStruct_true ((validateOrder_true_iff _ _).mp h1).1
      rcases h with hsym | hq | hp | hvid
      · exact hs.1 hsym
      · exact hs.2.1 hq
      · exact hs.2.2.2.1 rfl hp
      · omega
    · exact ⟨by omega, rfl⟩
    · exact ⟨by norm_num, rfl⟩
  · unfold placeStopLimitOrder
    split_ifs with h1 h2
    · exfalso
      have hs := validateOrderStruct_true ((validateOrder_true_iff _ _).mp h1).1
      rcases h with hsym | hq | hp | hsp | hvid
      · exact hs.1 hsym
      · exact hs.2.1 hq
      · exact (hs.2.2.2.2 rfl).1 hp
      · exact (hs.2.2.2.2 rfl).2 hsp
      · omega
    · exact ⟨by omega, rfl⟩
    · exact ⟨by norm_num, rfl⟩

/-- Witness for C1: the theorem applied at a fresh manager, venue id 1 and an
empty symbol. -/
theorem place_reject_returns_failure_book_unchanged_wit :
    (placeMarketOrder omInit 1 "" OrderSide.BUY 1 0).1 ≤ 0 ∧
    (placeMarketOrder omInit 1 "" OrderSide.BUY 1 0).2 = omInit ∧
    (placeLimitOrder omInit 1 "" OrderSide.BUY 1 1 0).1 ≤ 0 ∧
    (placeLimitOrder omInit 1 "" OrderSide.BUY 1 1 0).2 = omInit := by
  have h := place_reject_returns_failure_book_unchanged omInit 1 "" OrderSide.BUY 1 1 1 0
  exact ⟨(h.1 (Or.inl rfl)).1, (h.1 (Or.inl rfl)).2,
         (h.2.1 (Or.inl rfl)).1, (h.2.1 (Or.inl rfl)).2⟩

/-! ## C2 -/

/-- C2: for an order passing structural validation, and provided the running
daily PnL has not already breached the configured max daily loss,
`checkRiskLimits` accepts the order exactly when its notional
`quantity * price` is at or below the configured max position size; in
particular exact equality with the limit is accepted. -/
theorem checkRiskLimits_notional_boundary :
    ∀ (s : OMState) (o : Order), validateOrderStruct o = true →
    ¬ s.dailyPnL < -s.maxDailyLoss →
    (checkRiskLimits s o = true ↔ o.quantity * o.price ≤ s.maxPositionSize) := by
  intro s o _ hpnl
  unfold checkRiskLimits
  split_ifs with h1
  · exact ⟨fun hf => absurd hf (by decide), fun hle => absurd h1 (not_lt.mpr hle)⟩
  · exact ⟨fun _ => le_of_not_lt h1, fun _ => rfl⟩

/-- Witness for C2: a limit order whose notional is exactly the default
10000 limit is accepted by a fresh manager. -/
theorem checkRiskLimits_notional_boundary_wit :
    checkRiskLimits omInit { Order.default with
                             symbol := "AAPL", type := OrderType.LIMIT,
                             quantity := 2, price := 5000 } = true := by
  have h := checkRiskLimits_notional_boundary omInit
    { Order.default with
      symbol := "AAPL", type := OrderType.LIMIT, quantity := 2, price := 5000 }
    (by decide) (by norm_num [omInit])
  exact h.mpr (by norm_num [omInit])

/-! ## C5 -/

/-- C5: for an order id present in the book and a replacement order that
passes validation, when the venue confirms the modification, `modifyOrder`
returns true and stores the replacement under that id with the stored
order's id forced back to the original id, regardless of the id carried by
`newOrder`. -/
theorem modifyOrder_preserves_original_id :
    ∀ (s : OMState) (orderId : ℤ) (newOrder o : Order),
    findOrder s.orders orderId = some o →
    validateOrder s newOrder = true →
    (modifyOrder s true orderId newOrder).1 = true ∧
    findOrder (modifyOrder s true orderId newOrder).2.orders orderId =
      some { newOrder with orderId := orderId } := by
  intro s orderId newOrder o hfound hvalid
  unfold modifyOrder
  rw [hfound, hvalid]
  exact ⟨rfl, findOrder_setOrder_self _ hfound⟩

/-- Witness for C5: modifying the order stored under id 1 with a replacement
carrying id 99 leaves the stored id at 1. -/
theorem modifyOrder_preserves_original_id_wit :
    (modifyOrder { omInit with orders := [(1, Order.default)] } true 1
      { Order.default with orderId := 99, symbol := "MSFT", quantity := 1 }).1 = true ∧
    findOrder (modifyOrder { omInit with orders := [(1, Order.default)] } true 1
      { Order.default with orderId := 99, symbol := "MSFT", quantity := 1 }).2.orders 1 =
      some { Order.default with orderId := 1, symbol := "MSFT", quantity := 1 } := by
  exact modifyOrder_preserves_original_id
    { omInit with orders := [(1, Order.default)] } 1
    { Order.default with orderId := 99, symbol := "MSFT", quantity := 1 }
    Order.default (by decide)
    (by simp [validateOrder, validateOrderStruct, checkRiskLimits, omInit, Order.default])

/-! ## C6 -/

/-- C6: `cancelOrder` on an id absent from the book returns false and leaves
the whole gateway state unchanged; on a present id the stored status becomes
`CANCELLED` exactly when the venue's cancel call succeeds — when the venue
refuses, the state is returned unchanged, never optimistically marked. -/
theorem cancelOrder_only_on_venue_success :
    ∀ (s : OMState) (venueOk : Bool) (orderId : ℤ),
    (findOrder s.orders orderId = none → cancelOrder s venueOk orderId = (false, s)) ∧
    (∀ o, findOrder s.orders orderId = some o →
      (venueOk = false → cancelOrder s venueOk orderId = (false, s)) ∧
      (venueOk = true → (cancelOrder s venueOk orderId).1 = true ∧
        findOrder (cancelOrder s venueOk orderId).2.orders orderId =
          some { o with status := OrderStatus.CANCELLED })) := by
  intro s venueOk orderId
  constructor
  · intro hnone
    unfold cancelOrder
    rw [hnone]
  · intro o hfound
    constructor
    · intro hv
      subst hv
      unfold cancelOrder
      rw [hfound]
      rfl
    · intro hv
      subst hv
      unfold cancelOrder
      rw [hfound]
      exact ⟨rfl, findOrder_setStatus_self _ hfound⟩

/-- Witness for C6: cancelling unknown id 7 on a fresh manager changes
nothing, and cancelling a stored order with venue success marks it
cancelled. -/
theorem cancelOrder_only_on_venue_success_wit :
    cancelOrder omInit true 7 = (false, omInit) ∧
    findOrder (cancelOrder { omInit with orders := [(1, Order.default)] } true 1).2.orders 1 =
      some { Order.default with status := OrderStatus.CANCELLED } := by
  refine ⟨(cancelOrder_only_on_venue_success omInit true 7).1 (by decide), ?_⟩
  exact (((cancelOrder_only_on_venue_success
    { omInit with orders := [(1, Order.default)] } true 1).2 Order.default
    (by decide)).2 rfl).2

/-! ## C4 -/

/-- Counterexample for C4: in a reachable state (place a market order that
the venue accepts with id 1, then receive a FILLED callback) a further
`updateOrderStatus` callback moves the stored status from `FILLED` back to
`PENDING`, and a successful `modifyOrder` also rewrites the status of the
filled order to the replacement's (default `PENDING`) status — both
transitions the claimed state machine forbids. -/
theorem status_machine_counterexample :
    Option.map Order.status (findOrder (updateOrderStatus
      (placeMarketOrder omInit 1 "AAPL" OrderSide.BUY 10 0).2 1
      OrderStatus.FILLED).orders 1) = some OrderStatus.FILLED ∧
    Option.map Order.status (findOrder (updateOrderStatus (updateOrderStatus
      (placeMarketOrder omInit 1 "AAPL" OrderSide.BUY 10 0).2 1
      OrderStatus.FILLED) 1 OrderStatus.PENDING).orders 1) = some OrderStatus.PENDING ∧
    Option.map Order.status (findOrder (modifyOrder (updateOrderStatus
      (placeMarketOrder omInit 1 "AAPL" OrderSide.BUY 10 0).2 1
      OrderStatus.FILLED) true 1
      { Order.default with symbol := "AAPL", quantity := 5 }).2.orders 1) =
      some OrderStatus.PENDING := by
  simp [placeMarketOrder, mkMarketOrder, validateOrder, validateOrderStruct,
        checkRiskLimits, omInit, Order.default, upsert, updateOrderStatus,
        modifyOrder, findOrder, setStatus, setOrder]

/-- C4 amended: stored statuses are not confined to the claimed transition
diagram. `updateOrderStatus` overwrites the stored status of a present id
with whatever status the venue callback supplies — any transition,
including away from `FILLED` — and a successful `modifyOrder` overwrites
the stored status with `newOrder`'s status field. -/
theorem status_overwritten_unconditionally :
    (∀ (s : OMState) (orderId : ℤ) (st : OrderStatus) (o : Order),
      findOrder s.orders orderId = some o →
      findOrder (updateOrderStatus s orderId st).orders orderId =
        some { o with status := st }) ∧
    (∀ (s : OMState) (orderId : ℤ) (newOrder o : Order),
      findOrder s.orders orderId = some o →
      validateOrder s newOrder = true →
      Option.map Order.status
        (findOrder (modifyOrder s true orderId newOrder).2.orders orderId) =
        some newOrder.status) := by
  constructor
  · intro s orderId st o hfound
    unfold updateOrderStatus
    rw [hfound]
    exact findOrder_setStatus_self _ hfound
  · intro s orderId newOrder o hfound hvalid
    unfold modifyOrder
    rw [hfound, hvalid]
    show Option.map Order.status
      (findOrder (setOrder s.orders orderId { newOrder with orderId := orderId }) orderId) =
      some newOrder.status
    rw [findOrder_setOrder_self { newOrder with orderId := orderId } hfound]
    rfl

/-- Witness for C4's amended statement: a FILLED→PENDING overwrite via
`updateOrderStatus` on a book holding one order under id 2. -/
theorem status_overwritten_unconditionally_wit :
    findOrder (updateOrderStatus
      { omInit with orders := [(2, { Order.default with status := OrderStatus.FILLED })] }
      2 OrderStatus.PENDING).orders 2 =
      some { Order.default with status := OrderStatus.PENDING } ∧
    Option.map Order.status (findOrder (modifyOrder
      { omInit with orders := [(2, { Order.default with status := OrderStatus.FILLED })] }
      true 2 { Order.default with symbol := "IBM", quantity := 3 }).2.orders 2) =
      some OrderStatus.PENDING := by
  constructor
  · exact status_overwritten_unconditionally.1
      { omInit with orders := [(2, { Order.default with status := OrderStatus.FILLED })] }
      2 OrderStatus.PENDING { Order.default with status := OrderStatus.FILLED } (by decide)
  · exact status_overwritten_unconditionally.2
      { omInit with orders := [(2, { Order.default with status := OrderStatus.FILLED })] }
      2 { Order.default with symbol := "IBM", quantity := 3 }
      { Order.default with status := OrderStatus.FILLED } (by decide)
      (by simp [validateOrder, validateOrderStruct, checkRiskLimits, omInit, Order.default])

/-! ## C7 -/

/-- Folding `recordStep` from a window within the 252 cap keeps exactly the
most recent 252 appended values: the result is the concatenation with the
oldest surplus entries dropped. -/
lemma recordStep_fold (rs : List ℚ) : ∀ (l : List ℚ), l.length ≤ 252 →
    rs.foldl recordStep l = (l ++ rs).drop (l.length + rs.length - 252) := by
  induction rs with
  | nil =>
    intro l h
    have hz : l.length + (0 : ℕ) - 252 = 0 := by omega
    simp only [List.foldl_nil, List.append_nil, List.length_nil, hz, List.drop_zero]
  | cons r rs ih =>
    intro l h
    show rs.foldl recordStep (recordStep l r) = _
    by_cases hl : l.length = 252
    · match l with
      | [] => simp at hl
      | a :: t =>
        have ht : t.length = 251 := by simpa using hl
        have hstep : recordStep (a :: t) r = t ++ [r] := by
          simp [recordStep]
          omega
        rw [hstep, ih (t ++ [r]) (by simp [ht])]
        have harith : (t ++ [r]).length + rs.length - 252 = rs.length := by
          simp [ht]
        have harith2 : (a :: t).length + (r :: rs).length - 252 = rs.length + 1 := by
          simp [ht]
        rw [harith, harith2]
        simp [List.append_assoc]
    · have hlt : l.length < 252 := lt_of_le_of_ne h hl
      have hstep : recordStep l r = l ++ [r] := by
        simp [recordStep]
        omega
      rw [hstep, ih (l ++ [r]) (by simp; omega)]
      have harith : (l ++ [r]).length + rs.length - 252 =
          l.length + (r :: rs).length - 252 := by
        simp
        omega
      rw [harith]
      simp [List.append_assoc]

/-- Folding the state-level `recordDailyReturn` is folding `recordStep` on
the stored window. -/
lemma recordDailyReturn_foldl (rs : List ℚ) : ∀ (s : PMState),
    (rs.foldl recordDailyReturn s).dailyReturns =
      rs.foldl recordStep s.dailyReturns := by
  induction rs with
  | nil => intro s; rfl
  | cons r rs ih => intro s; exact ih (recordDailyReturn s r)

/-- C7: the return window never exceeds 252 entries (for any call sequence
starting within the cap), and a fresh manager that records 300 daily
returns retains exactly the most recent 252 of them in arrival (oldest
first) order — the first 48 have been evicted. -/
theorem recordDailyReturn_rolling_window :
    (∀ (s : PMState) (rs : List ℚ), s.dailyReturns.length ≤ 252 →
      (rs.foldl recordDailyReturn s).dailyReturns.length ≤ 252) ∧
    (∀ rs : List ℚ, rs.length = 300 →
      (rs.foldl recordDailyReturn pmInit).dailyReturns = rs.drop 48) := by
  constructor
  · intro s rs h
    rw [recordDailyReturn_foldl, recordStep_fold rs s.dailyReturns h]
    simp
    omega
  · intro rs h
    rw [recordDailyReturn_foldl]
    show rs.foldl recordStep ([] : List ℚ) = rs.drop 48
    rw [recordStep_fold rs [] (by simp)]
    simp [h]

/-- Witness for C7: applied to a fresh manager and to 300 zero returns. -/
theorem recordDailyReturn_rolling_window_wit :
    (([(1 : ℚ)].foldl recordDailyReturn pmInit).dailyReturns.length ≤ 252) ∧
    ((List.replicate 300 (0 : ℚ)).foldl recordDailyReturn pmInit).dailyReturns =
      (List.replicate 300 (0 : ℚ)).drop 48 := by
  constructor
  · exact recordDailyReturn_rolling_window.1 pmInit [(1 : ℚ)] (by simp [pmInit])
  · exact recordDailyReturn_rolling_window.2 (List.replicate 300 (0 : ℚ))
      (List.length_replicate 300 (0 : ℚ))

/-! ## C3 -/

/-- Counterexample for C3: `getMaxDrawdown` is not always zero. With the
constructor's initial value 100000 and a single recorded return of −5%,
the loop updates `peak` to `max(peak, peak·0.95) = peak` and then computes
`(peak − peak·0.95)/peak = 0.05`, so the function returns 1/20 ≠ 0. -/
theorem getMaxDrawdown_counterexample :
    getMaxDrawdown { dailyReturns := [-(1/20)], initialPortfolioValue := 100000 } ≠ 0 := by
  norm_num [getMaxDrawdown, drawdownStep, max_def]

/-- Each loop iteration of `getMaxDrawdown` contributes exactly the negated
daily return: the updated peak cancels out of the drawdown quotient. -/
lemma drawdownStep_fold (rs : List ℚ) : ∀ (md peak : ℚ), 0 < peak →
    (rs.foldl drawdownStep (md, peak)).1 =
      rs.foldl (fun m r => max m (-r)) md := by
  induction rs with
  | nil => intro md peak _; rfl
  | cons r rs ih =>
    intro md peak hp
    have hp' : 0 < max peak (peak * (1 + r)) := lt_of_lt_of_le hp (le_max_left _ _)
    have hne : max peak (peak * (1 + r)) ≠ 0 := ne_of_gt hp'
    have hdd : (max peak (peak * (1 + r)) - max peak (peak * (1 + r)) * (1 + r)) /
        max peak (peak * (1 + r)) = -r := by
      field_simp
      ring
    show (rs.foldl drawdownStep (drawdownStep (md, peak) r)).1 = _
    simp only [drawdownStep]
    rw [hdd]
    exact ih (max md (-r)) (max peak (peak * (1 + r))) hp'

/-- C3 amended: `getMaxDrawdown` is not identically zero. Because the peak
is updated before the drawdown is computed against the same updated peak,
each iteration's drawdown is exactly the negated daily return, so the
function returns the maximum of 0 and the negations of all recorded
returns — i.e. the magnitude of the single worst daily return, and 0 only
when no recorded return is negative. -/
theorem getMaxDrawdown_eq_neg_worst_return :
    ∀ s : PMState, 0 < s.initialPortfolioValue →
    getMaxDrawdown s = s.dailyReturns.foldl (fun m r => max m (-r)) 0 := by
  intro s hpos
  unfold getMaxDrawdown
  by_cases he : s.dailyReturns.isEmpty
  · rw [List.isEmpty_iff] at he
    simp [he]
  · rw [if_neg (by simpa using he)]
    exact drawdownStep_fold s.dailyReturns 0 s.initialPortfolioValue hpos

/-- Witness for C3's amended statement at the single-return history −5%. -/
theorem getMaxDrawdown_eq_neg_worst_return_wit :
    getMaxDrawdown { dailyReturns := [-(1/20)], initialPortfolioValue := 100000 } =
      [(-(1/20) : ℚ)].foldl (fun m r => max m (-r)) 0 := by
  exact getMaxDrawdown_eq_neg_worst_return
    { dailyReturns := [-(1/20)], initialPortfolioValue := 100000 } (by norm_num)

/-! ## C9 -/

/-- Counterexample for C9: the claim "no venue I/O is performed while
holding the table lock; the venue call happens before the lock is taken"
fails for `cancelOrder`, whose `client_->cancelOrder` call (line 120) runs
inside the scope of the `lock_guard` taken at line 113. -/
theorem cancelOrder_venue_call_under_lock :
    venueCallUnderLock cancelOrderTrace 0 = true := by
  decide

/-- C9 amended: the four placement operations call the venue before taking
`ordersMutex_`, so their traces contain no venue call under the lock; but
`cancelOrder` and `modifyOrder` take the lock first and perform their venue
call while holding it. -/
theorem venue_call_lock_discipline :
    venueCallUnderLock placeOrderTrace 0 = false ∧
    venueCallUnderLock cancelOrderTrace 0 = true ∧
    venueCallUnderLock modifyOrderTrace 0 = true := by
  decide

/-! ## C8 and C10 helpers -/

/-- On non-negative rationals the C++ float-to-int truncation agrees with
the mathematical floor. -/
lemma ratTrunc_eq_floor {q : ℚ} (hq : 0 ≤ q) : ratTrunc q = ⌊q⌋ := by
  unfold ratTrunc
  rw [Rat.floor_def]
  exact Int.tdiv_eq_ediv (Rat.num_nonneg.mpr hq) (Int.natCast_nonneg _)

/-- The clamped index of `getVaR` is non-negative and within bounds for a
non-empty window and a confidence level in [0, 1]. -/
lemma varIndex_bounds (n : ℕ) (c : ℚ) (hn : 0 < n) (_h0 : 0 ≤ c) (h1 : c ≤ 1) :
    0 ≤ varIndex n c ∧ varIndex n c < (n : ℤ) := by
  unfold varIndex
  have hq : 0 ≤ (1 - c) * (n : ℚ) := mul_nonneg (by linarith) (by positivity)
  rw [ratTrunc_eq_floor hq]
  have hfl : 0 ≤ ⌊(1 - c) * (n : ℚ)⌋ := Int.floor_nonneg.mpr hq
  by_cases hge : (n : ℤ) ≤ ⌊(1 - c) * (n : ℚ)⌋
  · rw [if_pos hge]
    omega
  · rw [if_neg hge]
    omega

/-- The source's truncate-then-clamp index computation equals the spec's
floor-then-min formulation on the claim's domain. -/
lemma varIndex_toNat_eq_min (n : ℕ) (c : ℚ) (hn : 0 < n) (_h0 : 0 ≤ c) (h1 : c ≤ 1) :
    (varIndex n c).toNat = min (Int.toNat ⌊(1 - c) * (n : ℚ)⌋) (n - 1) := by
  unfold varIndex
  have hq : 0 ≤ (1 - c) * (n : ℚ) := mul_nonneg (by linarith) (by positivity)
  rw [ratTrunc_eq_floor hq]
  have hfl : 0 ≤ ⌊(1 - c) * (n : ℚ)⌋ := Int.floor_nonneg.mpr hq
  by_cases hge : (n : ℤ) ≤ ⌊(1 - c) * (n : ℚ)⌋
  · rw [if_pos hge]
    omega
  · rw [if_neg hge]
    omega

/-! ## C8 -/

/-- C8: on any non-empty history and confidence level in [0, 1], `getVaR`
sorts the window ascending, selects the entry at rank
`floor((1 - confidenceLevel) * n)` clamped to the last index, and negates
it (the spec-model formulation `getVaRSpecModel`); in particular over the
returns [-0.05, -0.02, 0.01, 0.03, 0.04] at confidence 0.95 it selects
index 0 and returns 0.05. -/
theorem getVaR_selects_clamped_floor_rank :
    (∀ (s : PMState) (c : ℚ), 0 ≤ c → c ≤ 1 →
      getVaR s c = getVaRSpecModel s c) ∧
    getVaR { dailyReturns := [-(1/20), -(1/50), 1/100, 3/100, 1/25],
             initialPortfolioValue := 100000 } (19/20) = 1/20 := by
  constructor
  · intro s c h0 h1
    by_cases he : s.dailyReturns.isEmpty
    · simp [getVaR, getVaRSpecModel, he]
    · have hn : 0 < (s.dailyReturns.insertionSort (· ≤ ·)).length := by
        rw [List.length_insertionSort]
        cases hl : s.dailyReturns with
        | nil => rw [hl] at he; simp at he
        | cons a t => simp
      simp only [getVaR, getVaRSpecModel, he, Bool.false_eq_true, if_false]
      rw [varIndex_toNat_eq_min _ c hn h0 h1]
  · have hsort : (([-(1/20), -(1/50), 1/100, 3/100, 1/25] : List ℚ).insertionSort (· ≤ ·)) =
        [-(1/20), -(1/50), 1/100, 3/100, 1/25] := by
      norm_num [List.insertionSort, List.orderedInsert]
    have hidx : varIndex 5 (19/20) = 0 := by
      unfold varIndex
      rw [ratTrunc_eq_floor (by norm_num)]
      norm_num
    simp only [getVaR]
    rw [if_neg (by simp)]
    rw [hsort]
    simp only [List.length_cons, List.length_nil]
    rw [show ((0 : ℕ) + 1 + 1 + 1 + 1 + 1) = 5 from rfl, hidx]
    norm_num

/-- Witness for C8's universally quantified part at a singleton history and
confidence level 1/2. -/
theorem getVaR_selects_clamped_floor_rank_wit :
    getVaR { dailyReturns := [(3/100 : ℚ)], initialPortfolioValue := 100000 } (1/2) =
      getVaRSpecModel { dailyReturns := [(3/100 : ℚ)], initialPortfolioValue := 100000 }
        (1/2) := by
  exact getVaR_selects_clamped_floor_rank.1
    { dailyReturns := [(3/100 : ℚ)], initialPortfolioValue := 100000 } (1/2)
    (by norm_num) (by norm_num)

/-! ## C10 -/

/-- C10: the risk metrics are total at the public interface: on an empty
return history both `getVaR` (at any confidence level) and `getMaxDrawdown`
return 0, and for a non-empty window with confidence level in [0, 1] the
index used by `getVaR` into the sorted window is clamped within bounds. -/
theorem risk_metrics_total_and_in_bounds :
    (∀ (s : PMState) (c : ℚ), s.dailyReturns = [] →
      getVaR s c = 0 ∧ getMaxDrawdown s = 0) ∧
    (∀ (n : ℕ) (c : ℚ), 0 < n → 0 ≤ c → c ≤ 1 →
      0 ≤ varIndex n c ∧ (varIndex n c).toNat < n) ∧
    (∀ (s : PMState) (c : ℚ), ¬ s.dailyReturns = [] → 0 ≤ c → c ≤ 1 →
      (varIndex (s.dailyReturns.insertionSort (· ≤ ·)).length c).toNat <
        (s.dailyReturns.insertionSort (· ≤ ·)).length) := by
  refine ⟨?_, ?_, ?_⟩
  · intro s c he
    constructor <;> simp [getVaR, getMaxDrawdown, he]
  · intro n c hn h0 h1
    have h := varIndex_bounds n c hn h0 h1
    exact ⟨h.1, by omega⟩
  · intro s c he h0 h1
    have hn : 0 < (s.dailyReturns.insertionSort (· ≤ ·)).length := by
      rw [List.length_insertionSort]
      cases hl : s.dailyReturns with
      | nil => exact absurd hl he
      | cons a t => simp
    have h := varIndex_bounds _ c hn h0 h1
    omega

/-- Witness for C10: applied to an empty history at confidence 19/20 and to
the window length 3 at confidence 1/2. -/
theorem risk_metrics_total_and_in_bounds_wit :
    (getVaR pmInit (19/20) = 0 ∧ getMaxDrawdown pmInit = 0) ∧
    (0 ≤ varIndex 3 (1/2) ∧ (varIndex 3 (1/2)).toNat < 3) := by
  constructor
  · exact risk_metrics_total_and_in_bounds.1 pmInit (19/20) rfl
  · exact risk_metrics_total_and_in_bounds.2.1 3 (1/2) (by norm_num) (by norm_num)
      (by norm_num)

end IBTrading
